import Mathlib

/-!
Shallow embedding of `src/RawTile.h` from the iipsrv IIPImage server.

The C++ class `RawTile` couples descriptive metadata with a raw, untyped
pixel buffer (`void* data`) whose element type is selected at runtime from
`(bpc, sampleType)`.  We embed the class as a Lean structure whose `data`
field is an optional pointer into an explicit heap (`Mem`), modelled as an
association list from pointers to byte lists.  This keeps pointer identity,
ownership transfer, dangling pointers and aliasing observable, which the
properties below are about.  Machine integers: `width`, `height`,
`capacity`, `dataLength` are C++ 32-bit unsigned values, modelled as `Nat`
with `% 2^32` wherever the C++ source performs unsigned arithmetic;
`channels`, `bpc`, `quality` and the identity fields are C++ `int`,
modelled as `Int` (conversion to unsigned is `% 2^32` on `Int`, which is
Lean's `emod`, matching the C++ conversion rule).

Undefined behaviour in the source (out-of-bounds `memcpy`, dereferencing a
null source buffer) is totalised: reads past a block's end yield nothing
and writes past a block's end are dropped.  All theorems below carry
hypotheses keeping every access in range, so the totalisation is never
exercised where a claim is settled.
-/

/-- Sample types (`enum class SampleType`). -/
inductive SampleType where
  | FIXEDPOINT
  | FLOATINGPOINT
deriving DecidableEq

/-- File format / encoding / compression types (`enum class ImageEncoding`). -/
inductive ImageEncoding where
  | UNSUPPORTED
  | RAW
  | TIFF
  | JPEG2000
  | JPEG
  | DEFLATE
  | PNG
  | WEBP
  | AVIF
deriving DecidableEq

/-- Pointers: abstract heap addresses. `NULL` is `Option.none` on the tile side. -/
abbrev Ptr := Nat

/-- `2^32`, the modulus of C++ 32-bit unsigned arithmetic. -/
def U32 : Nat := 4294967296

/-- C++ conversion of a (possibly negative) `int` value to `uint32_t`:
reduction modulo `2^32` (Lean's `Int.emod` returns the non-negative
representative, as the C++ conversion does). -/
def toU32 (z : Int) : Nat := (z % (4294967296 : Int)).toNat

/-- The heap: allocated blocks of bytes, addressed by pointer.  `next` is the
next fresh address handed out by `new`. -/
structure Mem where
  heap : List (Ptr × List Nat)
  next : Ptr
deriving DecidableEq

/-- First block stored under key `p` (the heap keeps at most one per key). -/
def hfind (p : Ptr) : List (Ptr × List Nat) → Option (List Nat)
  | [] => none
  | e :: rest => if e.1 = p then some e.2 else hfind p rest

/-- Read the block at pointer `p`, if allocated. -/
def Mem.get? (m : Mem) (p : Ptr) : Option (List Nat) := hfind p m.heap

/-- `new`: allocate a fresh block of `n` bytes.  The C++ contents are
uninitialised; we model them as zeros (no theorem below observes a byte
that was not subsequently written). -/
def Mem.alloc (m : Mem) (n : Nat) : Mem × Ptr :=
  (⟨(m.next, List.replicate n 0) :: m.heap, m.next + 1⟩, m.next)

/-- `delete[]`: remove the block at pointer `p` from the heap. -/
def Mem.free (m : Mem) (p : Ptr) : Mem :=
  ⟨m.heap.filter (fun e => e.1 ≠ p), m.next⟩

/-- Overwrite the bytes of `bs` from offset `off` with `src` (the effect of
`memcpy` inside one block).  Bytes of `src` falling past the end of `bs`
are dropped (out-of-bounds writes are undefined behaviour in the source;
the theorems' hypotheses keep `off + src.length ≤ bs.length`). -/
def overwriteAt (bs : List Nat) (off : Nat) (src : List Nat) : List Nat :=
  bs.take off ++ src.take (bs.length - off) ++ bs.drop (off + src.length)

/-- Write `src` into the block at `p` starting at byte offset `off`. -/
def Mem.write (m : Mem) (p : Ptr) (off : Nat) (src : List Nat) : Mem :=
  ⟨m.heap.map (fun e => if e.1 = p then (e.1, overwriteAt e.2 off src) else e), m.next⟩

/-- Read `n` bytes from the block at `p` starting at offset `off`.
Out-of-range bytes are absent (undefined behaviour in the source). -/
def Mem.readBytes (m : Mem) (p : Ptr) (off n : Nat) : List Nat :=
  ((((m.get? p).getD []).drop off).take n)

/-- `memcpy( dst + dOff, src + sOff, n )` between two blocks. -/
def Mem.copyBytes (m : Mem) (dst : Ptr) (dOff : Nat) (src : Ptr) (sOff n : Nat) : Mem :=
  m.write dst dOff (m.readBytes src sOff n)

/-- Heap well-formedness: every allocated pointer is below the fresh counter. -/
def Mem.WF (m : Mem) : Prop := ∀ e ∈ m.heap, e.1 < m.next

instance (m : Mem) : Decidable m.WF :=
  inferInstanceAs (Decidable (∀ e ∈ m.heap, e.1 < m.next))

/-- The `RawTile` class.  Field-for-field translation of the C++ class;
`data` is `none` exactly when the C++ pointer is `NULL`. -/
structure RawTile where
  filename : String
  width : Nat
  height : Nat
  channels : Int
  bpc : Int
  sampleType : SampleType
  compressionType : ImageEncoding
  quality : Int
  timestamp : Int
  tileNum : Int
  resolution : Int
  hSequence : Int
  vSequence : Int
  capacity : Nat
  dataLength : Nat
  memoryManaged : Int
  data : Option Ptr
deriving DecidableEq

/-- Main constructor:
`RawTile( tn, res, hs, vs, w, h, c, b )` — all other fields take the
defaults of the initialiser list (`FIXEDPOINT`, `RAW`, quality 0,
timestamp 0, capacity 0, dataLength 0, memoryManaged 1, data NULL).
`w`, `h` are `int` arguments stored into `unsigned int` fields. -/
def RawTile.init (tn res hs vs w h c b : Int) : RawTile :=
  { filename := ""
    width := toU32 w
    height := toU32 h
    channels := c
    bpc := b
    sampleType := SampleType.FIXEDPOINT
    compressionType := ImageEncoding.RAW
    quality := 0
    timestamp := 0
    tileNum := tn
    resolution := res
    hSequence := hs
    vSequence := vs
    capacity := 0
    dataLength := 0
    memoryManaged := 1
    data := none }

/-- Byte width of the buffer element type selected by the
`switch( bpc )` dispatch: `bpc == 32` → `float` / `unsigned int`
(4 bytes either way), `bpc == 16` → `unsigned short` (2 bytes),
default → `unsigned char` (1 byte). -/
def elemBytes (bpc : Int) (st : SampleType) : Nat :=
  if bpc = 32 then
    (if st = SampleType.FLOATINGPOINT then 4 else 4)
  else if bpc = 16 then 2
  else 1

/-- The default allocation size
`(uint32_t) width * height * channels * (bpc/8)` — C++ unsigned 32-bit
arithmetic, with `channels` and the `int` quotient `bpc/8` (truncated
division) converted to unsigned. -/
def RawTile.defaultSize (t : RawTile) : Nat :=
  (t.width * t.height * toU32 t.channels * toU32 (Int.tdiv t.bpc 8)) % U32

/-- `RawTile::allocate( uint32_t size = 0 )`:
if `size == 0` it is recomputed as the default size; then
`switch( bpc )` allocates `new float[size/4]` / `new int[size/4]`,
`new unsigned short[size/2]`, or `new unsigned char[size]` (so the block
holds `(size/e)*e` bytes for element width `e`); finally
`memoryManaged = 1` and `capacity = size`. -/
def RawTile.allocate (t : RawTile) (m : Mem) (size0 : Nat) : RawTile × Mem :=
  let size := if size0 = 0 then t.defaultSize else size0
  let nbytes :=
    if t.bpc = 32 then
      (if t.sampleType = SampleType.FLOATINGPOINT then (size / 4) * 4 else (size / 4) * 4)
    else if t.bpc = 16 then (size / 2) * 2
    else size
  let am := m.alloc nbytes
  ({ t with data := some am.2, memoryManaged := 1, capacity := size }, am.1)

/-- `RawTile::deallocate( void* buffer )`:
if `buffer` is non-null, `delete[]` it through the `(bpc, sampleType)`
dispatch and set `capacity = dataLength = 0`.  The source's
`buffer = NULL;` assigns the by-value parameter only: the member `data`
is not modified here. -/
def RawTile.deallocate (t : RawTile) (m : Mem) (buffer : Option Ptr) : RawTile × Mem :=
  match buffer with
  | some p => ({ t with capacity := 0, dataLength := 0 }, m.free p)
  | none => (t, m)

/-- The scanline-copy loop of `RawTile::crop`: for `i = 0 .. h-1`,
`memcpy( dst_ptr, src_ptr, dlen )` with `dst_ptr` advancing by `dlen`
and `src_ptr` by `slen` bytes each iteration. -/
def copyScanlines (m : Mem) (dst src : Ptr) (dlen slen : Nat) : Nat → Mem
  | 0 => m
  | i + 1 => (copyScanlines m dst src dlen slen i).copyBytes dst (i * dlen) src (i * slen) dlen

/-- `RawTile::crop( const unsigned int w, const unsigned int h )`. -/
def RawTile.crop (t : RawTile) (m : Mem) (w h : Nat) : RawTile × Mem :=
  -- void* buffer = data;  int mm = memoryManaged;
  let buffer := t.data
  let mm := t.memoryManaged
  -- unsigned int len = w * h * channels * (bpc/8);  allocate( len );
  let len := (w * h * toU32 t.channels * toU32 (Int.tdiv t.bpc 8)) % U32
  let a := t.allocate m len
  -- unsigned int dlen = w * channels * (bpc/8);  slen = width * channels * (bpc/8);
  let dlen := (w * toU32 t.channels * toU32 (Int.tdiv t.bpc 8)) % U32
  let slen := (t.width * toU32 t.channels * toU32 (Int.tdiv t.bpc 8)) % U32
  -- the copy loop dereferences buffer and data (the source does so even if NULL)
  let m2 :=
    match buffer, a.1.data with
    | some src, some dst => copyScanlines a.2 dst src dlen slen h
    | _, _ => a.2
  -- if( mm ) deallocate( buffer );
  let d := if mm ≠ 0 then a.1.deallocate m2 buffer else (a.1, m2)
  -- capacity = len;  dataLength = len;  width = w;  height = h;
  ({ d.1 with capacity := len, dataLength := len, width := w, height := h }, d.2)

/-- The pixel loop of `RawTile::triplicate`: for `i = 0 .. len-1` and
`k = 0, 1, 2`, copy element `i` of the old buffer to element `n+k` of the
new buffer, where `n` is a `uint32_t` accumulator equal to `3*i (mod 2^32)`
and `e` is the element byte width of the `(bpc, sampleType)` dispatch. -/
def tripLoop (m : Mem) (dst src : Ptr) (e : Nat) : Nat → Mem
  | 0 => m
  | i + 1 =>
    let m0 := tripLoop m dst src e i
    let n := (3 * i) % U32
    let m1 := m0.copyBytes dst (n * e) src (i * e) e
    let m2 := m1.copyBytes dst (((n + 1) % U32) * e) src (i * e) e
    m2.copyBytes dst (((n + 2) % U32) * e) src (i * e) e

/-- `RawTile::triplicate()`. -/
def RawTile.triplicate (t : RawTile) (m : Mem) : RawTile × Mem :=
  if t.channels ≠ 1 then (t, m)
  else
    -- void* buffer = data;  int mm = memoryManaged;
    let buffer := t.data
    let mm := t.memoryManaged
    -- channels = 3;  allocate();
    let t1 : RawTile := { t with channels := 3 }
    let a := t1.allocate m 0
    -- unsigned int len = width * height;
    let len := (a.1.width * a.1.height) % U32
    let e := elemBytes a.1.bpc a.1.sampleType
    let m2 :=
      match buffer, a.1.data with
      | some src, some dst => tripLoop a.2 dst src e len
      | _, _ => a.2
    -- if( mm ) deallocate( buffer );
    let d := if mm ≠ 0 then a.1.deallocate m2 buffer else (a.1, m2)
    -- capacity = len;  dataLength = len;
    ({ d.1 with capacity := len, dataLength := len }, d.2)

/-- Copy constructor `RawTile( const RawTile& tile )`:
the initialiser list copies every field with `data( NULL )`; the body
re-allocates `tile.dataLength` bytes, `memcpy`s them from the source and
sets `memoryManaged = 1` whenever `tile.data` is non-null and
`tile.dataLength > 0`. -/
def RawTile.copyCtor (t : RawTile) (m : Mem) : RawTile × Mem :=
  let c : RawTile := { t with data := none }
  match t.data with
  | some p =>
    if 0 < t.dataLength then
      let a := c.allocate m t.dataLength
      let m2 :=
        match a.1.data with
        | some q => a.2.copyBytes q 0 p 0 t.dataLength
        | none => a.2
      ({ a.1 with memoryManaged := 1 }, m2)
    else (c, m)
  | none => (c, m)

/-- Copy assignment `RawTile& operator= ( const RawTile& tile )`
(the `this != &tile` guard compares addresses; we model assignment
between distinct objects).  Every field except `data` is assigned from
the source; then the same conditional typed copy as the copy
constructor runs.  `d` is the destination's prior state. -/
def RawTile.copyAssign (d : RawTile) (t : RawTile) (m : Mem) : RawTile × Mem :=
  let c : RawTile :=
    { d with
      tileNum := t.tileNum, resolution := t.resolution, hSequence := t.hSequence,
      vSequence := t.vSequence, compressionType := t.compressionType,
      quality := t.quality, filename := t.filename, timestamp := t.timestamp,
      memoryManaged := t.memoryManaged, dataLength := t.dataLength,
      width := t.width, height := t.height, channels := t.channels,
      bpc := t.bpc, sampleType := t.sampleType, capacity := t.capacity }
  match t.data with
  | some p =>
    if 0 < t.dataLength then
      let a := c.allocate m t.dataLength
      let m2 :=
        match a.1.data with
        | some q => a.2.copyBytes q 0 p 0 t.dataLength
        | none => a.2
      ({ a.1 with memoryManaged := 1 }, m2)
    else (c, m)
  | none => (c, m)

/-- Move constructor `RawTile( RawTile&& tile )`:
the initialiser list copies every field with `data( NULL )`.  If the
source owns its buffer (`tile.memoryManaged == 1`) the pointer is
adopted and the source is reset (`data = nullptr`, `dataLength = 0`,
`capacity = 0`, `memoryManaged = 0`); otherwise, if the source holds
data, a full typed copy is made.  Returns (destination, source after
the move) and the heap. -/
def RawTile.moveCtor (t : RawTile) (m : Mem) : (RawTile × RawTile) × Mem :=
  let c : RawTile := { t with data := none }
  if t.memoryManaged = 1 then
    (({ c with data := t.data },
      { t with data := none, dataLength := 0, capacity := 0, memoryManaged := 0 }), m)
  else
    match t.data with
    | some p =>
      if 0 < t.dataLength then
        let a := c.allocate m t.dataLength
        let m2 :=
          match a.1.data with
          | some q => a.2.copyBytes q 0 p 0 t.dataLength
          | none => a.2
        (({ a.1 with memoryManaged := 1 }, t), m2)
      else ((c, t), m)
    | none => ((c, t), m)

/-- `friend int operator == ( const RawTile& A, const RawTile& B )`:
returns 1 when tile number, resolution, horizontal and vertical
sequence, compression type, quality and filename all agree, else 0. -/
def rawTileEq (A B : RawTile) : Int :=
  if A.tileNum = B.tileNum ∧ A.resolution = B.resolution ∧
     A.hSequence = B.hSequence ∧ A.vSequence = B.vSequence ∧
     A.compressionType = B.compressionType ∧ A.quality = B.quality ∧
     A.filename = B.filename
  then 1 else 0

/-- `friend int operator != ( const RawTile& A, const RawTile& B )`:
returns 0 when the same seven fields agree, else 1. -/
def rawTileNe (A B : RawTile) : Int :=
  if A.tileNum = B.tileNum ∧ A.resolution = B.resolution ∧
     A.hSequence = B.hSequence ∧ A.vSequence = B.vSequence ∧
     A.compressionType = B.compressionType ∧ A.quality = B.quality ∧
     A.filename = B.filename
  then 0 else 1

/-- The first `i` cropped scanlines: for each `j < i`, the `dlen`-byte
prefix of the scanline starting at byte `j * slen` of the source. -/
def scanJoin (bs : List Nat) (dlen slen i : Nat) : List Nat :=
  ((List.range i).map (fun j => (bs.drop (j * slen)).take dlen)).flatten

/-- The first `i` triplicated pixels: each element (of byte width `e`) of
the source appears three times in a row. -/
def tripJoin (bs : List Nat) (e i : Nat) : List Nat :=
  ((List.range i).map (fun j =>
    (bs.drop (j * e)).take e ++ (bs.drop (j * e)).take e ++
      (bs.drop (j * e)).take e)).flatten


/-! ### Concrete tiles and heaps used to instantiate the theorems -/

/-- A 2x2, 1-channel, 8-bit tile whose buffer (4 bytes at pointer 0) has
been populated by a producer. -/
def tileC1 : RawTile :=
  { RawTile.init 0 0 0 0 2 2 1 8 with data := some 0, dataLength := 4, capacity := 4 }

def memC1 : Mem := ⟨[(0, [10, 20, 30, 40])], 1⟩

/-- A 4x4, 1-channel, 8-bit tile over the 16-byte buffer 0..15. -/
def tileC2 : RawTile :=
  { RawTile.init 0 0 0 0 4 4 1 8 with data := some 0, dataLength := 16, capacity := 16 }

def memC2 : Mem :=
  ⟨[(0, [0, 1, 2, 3, 4, 5, 6, 7, 8, 9, 10, 11, 12, 13, 14, 15])], 1⟩

/-- A 2x1, 1-channel, 8-bit tile over the 2-byte buffer [7, 9]. -/
def tileC3 : RawTile :=
  { RawTile.init 0 0 0 0 2 1 1 8 with data := some 0, dataLength := 2, capacity := 2 }

def memC3 : Mem := ⟨[(0, [7, 9])], 1⟩

/-- An owning 2x1, 1-channel, 8-bit tile over the buffer [3, 4]. -/
def tileC4 : RawTile :=
  { RawTile.init 0 0 0 0 2 1 1 8 with data := some 0, dataLength := 2, capacity := 2 }

def memC4 : Mem := ⟨[(0, [3, 4])], 1⟩

/-- A non-owning (`memoryManaged = 0`) 2x1, 1-channel, 8-bit tile over
the buffer [3, 4]. -/
def tileC8 : RawTile :=
  { RawTile.init 5 1 0 0 2 1 1 8 with
      data := some 0, dataLength := 2, capacity := 2, memoryManaged := 0 }

def memC8 : Mem := ⟨[(0, [3, 4])], 1⟩

/-- A fresh 2x2, 1-channel, 8-bit tile after `allocate()` on an empty heap. -/
def allocC6 : RawTile × Mem :=
  RawTile.allocate (RawTile.init 0 0 0 0 2 2 1 8) ⟨[], 0⟩ 0

/-- … followed by `deallocate( data )`. -/
def deallocC6 : RawTile × Mem :=
  allocC6.1.deallocate allocC6.2 allocC6.1.data

/-- A 2x3, 3-channel, 16-bit tile with no buffer, and an empty heap. -/
def tileC7 : RawTile := RawTile.init 0 0 0 0 2 3 3 16

def memC7 : Mem := ⟨[], 0⟩

/-! ### Heap lemmas -/

theorem hfind_write (q p : Ptr) (off : Nat) (src : List Nat)
    (l : List (Ptr × List Nat)) :
    hfind q (l.map (fun e => if e.1 = p then (e.1, overwriteAt e.2 off src) else e)) =
      if q = p then (hfind q l).map (fun bs => overwriteAt bs off src)
      else hfind q l := by
  induction l with
  | nil => by_cases h : q = p <;> simp [hfind, h]
  | cons e rest ih =>
    by_cases h2 : e.1 = p
    · subst h2
      by_cases h1 : e.1 = q
      · subst h1
        simp [hfind]
      · have hqp : ¬ q = e.1 := fun h => h1 h.symm
        simp [hfind, h1, hqp, ih]
    · by_cases h1 : e.1 = q
      · subst h1
        have hqp : ¬ e.1 = p := h2
        simp [hfind, h2, hqp]
      · simp [hfind, h1, h2, ih]

theorem hfind_filter (q p : Ptr) (l : List (Ptr × List Nat)) :
    hfind q (l.filter (fun e => e.1 ≠ p)) =
      if q = p then none else hfind q l := by
  induction l with
  | nil => by_cases h : q = p <;> simp [hfind, h]
  | cons e rest ih =>
    by_cases h1 : e.1 = q <;> by_cases h2 : e.1 = p <;>
      simp_all [hfind, List.filter_cons]

theorem hfind_lt (l : List (Ptr × List Nat)) (nx p : Ptr) (bs : List Nat)
    (hwf : ∀ e ∈ l, e.1 < nx) (h : hfind p l = some bs) : p < nx := by
  induction l with
  | nil => simp [hfind] at h
  | cons e rest ih =>
    by_cases h1 : e.1 = p
    · exact h1 ▸ hwf e (by simp)
    · exact ih (fun x hx => hwf x (by simp [hx])) (by simpa [hfind, h1] using h)

theorem Mem.get_write (m : Mem) (p q : Ptr) (off : Nat) (src : List Nat) :
    (m.write p off src).get? q =
      if q = p then (m.get? q).map (fun bs => overwriteAt bs off src)
      else m.get? q := by
  simpa [Mem.write, Mem.get?] using hfind_write q p off src m.heap

theorem Mem.get_free (m : Mem) (p q : Ptr) :
    (m.free p).get? q = if q = p then none else m.get? q := by
  simpa [Mem.free, Mem.get?] using hfind_filter q p m.heap

theorem Mem.get_alloc_self (m : Mem) (n : Nat) :
    (m.alloc n).1.get? m.next = some (List.replicate n 0) := by
  simp [Mem.alloc, Mem.get?, hfind]

theorem Mem.get_alloc_other (m : Mem) (n : Nat) (q : Ptr) (h : q ≠ m.next) :
    (m.alloc n).1.get? q = m.get? q := by
  simp [Mem.alloc, Mem.get?, hfind, Ne.symm h]

theorem Mem.lt_next_of_get (m : Mem) (hwf : m.WF) (p : Ptr) (bs : List Nat)
    (h : m.get? p = some bs) : p < m.next :=
  hfind_lt m.heap m.next p bs hwf h

theorem Mem.readBytes_eq (m : Mem) (p : Ptr) (bs : List Nat) (off n : Nat)
    (h : m.get? p = some bs) : m.readBytes p off n = (bs.drop off).take n := by
  simp [Mem.readBytes, h]

theorem overwriteAt_append (pre pad src : List Nat) (h : src.length ≤ pad.length) :
    overwriteAt (pre ++ pad) pre.length src = pre ++ src ++ pad.drop src.length := by
  unfold overwriteAt
  rw [List.take_left, List.length_append, Nat.add_sub_cancel_left,
    List.take_of_length_le h]
  congr 1
  simp [List.drop_append]

/-! ### The crop scanline copy -/

theorem scanJoin_zero (bs : List Nat) (dlen slen : Nat) :
    scanJoin bs dlen slen 0 = [] := rfl

theorem scanJoin_succ (bs : List Nat) (dlen slen i : Nat) :
    scanJoin bs dlen slen (i + 1) =
      scanJoin bs dlen slen i ++ (bs.drop (i * slen)).take dlen := by
  simp [scanJoin, List.range_succ]

theorem scanJoin_length (bs : List Nat) (dlen slen i : Nat)
    (hb : ∀ j, j < i → j * slen + dlen ≤ bs.length) :
    (scanJoin bs dlen slen i).length = i * dlen := by
  induction i with
  | zero => simp [scanJoin]
  | succ i ih =>
    rw [scanJoin_succ, List.length_append,
      ih (fun j hj => hb j (Nat.lt_succ_of_lt hj))]
    have h1 : i * slen + dlen ≤ bs.length := hb i (Nat.lt_succ_self i)
    have h2 : ((bs.drop (i * slen)).take dlen).length = dlen := by
      simp only [List.length_take, List.length_drop]
      omega
    rw [h2]
    ring

theorem copyScanlines_spec (dst src : Ptr) (hds : dst ≠ src)
    (bs : List Nat) (dlen slen L : Nat) :
    ∀ (i : Nat) (m : Mem),
      m.get? dst = some (List.replicate L 0) →
      m.get? src = some bs →
      (∀ j, j < i → j * slen + dlen ≤ bs.length) →
      i * dlen ≤ L →
      (copyScanlines m dst src dlen slen i).get? dst =
          some (scanJoin bs dlen slen i ++ List.replicate (L - i * dlen) 0) ∧
        ∀ r, r ≠ dst → (copyScanlines m dst src dlen slen i).get? r = m.get? r := by
  intro i
  induction i with
  | zero =>
    intro m hdst hsrc _ _
    exact ⟨by simpa [copyScanlines, scanJoin] using hdst, fun r _ => rfl⟩
  | succ i ih =>
    intro m hdst hsrc hb hL
    rw [Nat.succ_mul] at hL
    have hbi : ∀ j, j < i → j * slen + dlen ≤ bs.length :=
      fun j hj => hb j (Nat.lt_succ_of_lt hj)
    have hLi : i * dlen ≤ L := by omega
    obtain ⟨ihdst, ihframe⟩ := ih m hdst hsrc hbi hLi
    have ihsrc : (copyScanlines m dst src dlen slen i).get? src = some bs := by
      rw [ihframe src (Ne.symm hds)]; exact hsrc
    set mi := copyScanlines m dst src dlen slen i with hmi
    have hread : mi.readBytes src (i * slen) dlen = (bs.drop (i * slen)).take dlen :=
      Mem.readBytes_eq mi src bs (i * slen) dlen ihsrc
    have hbnd : i * slen + dlen ≤ bs.length := hb i (Nat.lt_succ_self i)
    have hchunk : ((bs.drop (i * slen)).take dlen).length = dlen := by
      simp only [List.length_take, List.length_drop]
      omega
    have hpre : (scanJoin bs dlen slen i).length = i * dlen :=
      scanJoin_length bs dlen slen i hbi
    constructor
    · show (mi.copyBytes dst (i * dlen) src (i * slen) dlen).get? dst = _
      rw [Mem.copyBytes, Mem.get_write, if_pos rfl, hread, ihdst]
      simp only [Option.map_some']
      have hov :
          overwriteAt (scanJoin bs dlen slen i ++ List.replicate (L - i * dlen) 0)
              (i * dlen) ((bs.drop (i * slen)).take dlen) =
            scanJoin bs dlen slen i ++ (bs.drop (i * slen)).take dlen ++
              (List.replicate (L - i * dlen) 0).drop dlen := by
        have h := overwriteAt_append (scanJoin bs dlen slen i)
          (List.replicate (L - i * dlen) 0) ((bs.drop (i * slen)).take dlen)
          (by
            rw [hchunk, List.length_replicate]
            omega)
        rwa [hpre, hchunk] at h
      rw [hov, List.drop_replicate, scanJoin_succ, List.append_assoc,
        List.append_assoc]
      have hrep : L - i * dlen - dlen = L - (i + 1) * dlen := by
        rw [Nat.succ_mul]
        omega
      rw [hrep]
    · intro r hr
      show (mi.copyBytes dst (i * dlen) src (i * slen) dlen).get? r = _
      rw [Mem.copyBytes, Mem.get_write, if_neg hr]
      exact ihframe r hr

/-- C2: `crop(w, h)` with `w ≤ width`, `h ≤ height` on a populated buffer
yields the top-left sub-rectangle (each scanline truncated, order
preserved) and sets `width`, `height`, `capacity` and `dataLength` to the
new values. -/
theorem crop_spec (t : RawTile) (m : Mem) (p : Ptr) (bs : List Nat) (w h : Nat)
    (hdata : t.data = some p)
    (hm : m.get? p = some bs)
    (hwf : m.WF)
    (hw : w ≤ t.width) (hh : h ≤ t.height)
    (hc : 0 ≤ t.channels) (hcU : t.channels < (4294967296 : Int))
    (hbpc : t.bpc = 8 ∨ t.bpc = 16 ∨ t.bpc = 32)
    (hlen0 : 0 < w * h * t.channels.toNat * (t.bpc.toNat / 8))
    (hbig : t.width * t.height * t.channels.toNat * (t.bpc.toNat / 8) < 4294967296)
    (hbs : bs.length = t.height * (t.width * t.channels.toNat * (t.bpc.toNat / 8))) :
    (t.crop m w h).1.width = w ∧
    (t.crop m w h).1.height = h ∧
    (t.crop m w h).1.capacity = w * h * t.channels.toNat * (t.bpc.toNat / 8) ∧
    (t.crop m w h).1.dataLength = w * h * t.channels.toNat * (t.bpc.toNat / 8) ∧
    (t.crop m w h).1.data = some m.next ∧
    (t.crop m w h).2.get? m.next =
      some (scanJoin bs (w * t.channels.toNat * (t.bpc.toNat / 8))
        (t.width * t.channels.toNat * (t.bpc.toNat / 8)) h) := by
  have hp_lt : p < m.next := Mem.lt_next_of_get m hwf p bs hm
  have hpn : p ≠ m.next := Nat.ne_of_lt hp_lt
  have hw0 : 0 < w := Nat.pos_of_ne_zero (fun hx => by simp [hx] at hlen0)
  have hh0 : 0 < h := Nat.pos_of_ne_zero (fun hx => by simp [hx] at hlen0)
  have hcN0 : 0 < t.channels.toNat :=
    Nat.pos_of_ne_zero (fun hx => by simp [hx] at hlen0)
  have he0 : 0 < t.bpc.toNat / 8 :=
    Nat.pos_of_ne_zero (fun hx => by simp [hx] at hlen0)
  have htoc : toU32 t.channels = t.channels.toNat := by
    unfold toU32
    rw [Int.emod_eq_of_lt hc hcU]
  have htod : toU32 (Int.tdiv t.bpc 8) = t.bpc.toNat / 8 := by
    rcases hbpc with hb | hb | hb <;> rw [hb] <;> rfl
  have hmono : w * h * t.channels.toNat * (t.bpc.toNat / 8) ≤
      t.width * t.height * t.channels.toNat * (t.bpc.toNat / 8) :=
    Nat.mul_le_mul (Nat.mul_le_mul (Nat.mul_le_mul hw hh) le_rfl) le_rfl
  have hlen_eq : (w * h * toU32 t.channels * toU32 (Int.tdiv t.bpc 8)) % U32 =
      w * h * t.channels.toNat * (t.bpc.toNat / 8) := by
    rw [htoc, htod]
    exact Nat.mod_eq_of_lt (lt_of_le_of_lt hmono hbig)
  have hdle : w * t.channels.toNat * (t.bpc.toNat / 8) ≤
      w * h * t.channels.toNat * (t.bpc.toNat / 8) := by
    have h1 : w * 1 * t.channels.toNat * (t.bpc.toNat / 8) ≤
        w * h * t.channels.toNat * (t.bpc.toNat / 8) :=
      Nat.mul_le_mul (Nat.mul_le_mul (Nat.mul_le_mul le_rfl hh0) le_rfl) le_rfl
    simpa using h1
  have hdlen_eq : (w * toU32 t.channels * toU32 (Int.tdiv t.bpc 8)) % U32 =
      w * t.channels.toNat * (t.bpc.toNat / 8) := by
    rw [htoc, htod]
    exact Nat.mod_eq_of_lt (lt_of_le_of_lt hdle (lt_of_le_of_lt hmono hbig))
  have hsle : t.width * t.channels.toNat * (t.bpc.toNat / 8) ≤
      t.width * t.height * t.channels.toNat * (t.bpc.toNat / 8) := by
    have h1 : t.width * 1 * t.channels.toNat * (t.bpc.toNat / 8) ≤
        t.width * t.height * t.channels.toNat * (t.bpc.toNat / 8) :=
      Nat.mul_le_mul (Nat.mul_le_mul (Nat.mul_le_mul le_rfl (le_trans hh0 hh)) le_rfl) le_rfl
    simpa using h1
  have hslen_eq : (t.width * toU32 t.channels * toU32 (Int.tdiv t.bpc 8)) % U32 =
      t.width * t.channels.toNat * (t.bpc.toNat / 8) := by
    rw [htoc, htod]
    exact Nat.mod_eq_of_lt (lt_of_le_of_lt hsle hbig)
  have hlen_ne : ¬ w * h * t.channels.toNat * (t.bpc.toNat / 8) = 0 :=
    Nat.pos_iff_ne_zero.mp hlen0
  have hnb : (if t.bpc = 32 then
        (if t.sampleType = SampleType.FLOATINGPOINT then
          ((w * h * t.channels.toNat * (t.bpc.toNat / 8)) / 4) * 4
        else ((w * h * t.channels.toNat * (t.bpc.toNat / 8)) / 4) * 4)
      else if t.bpc = 16 then ((w * h * t.channels.toNat * (t.bpc.toNat / 8)) / 2) * 2
      else w * h * t.channels.toNat * (t.bpc.toNat / 8)) =
      w * h * t.channels.toNat * (t.bpc.toNat / 8) := by
    rcases hbpc with hb | hb | hb
    · rw [hb]
      norm_num
    · rw [hb, show ((16:Int).toNat / 8) = 2 from rfl]
      norm_num
    · rw [hb, show ((32:Int).toNat / 8) = 4 from rfl]
      norm_num [ite_self]
  have hdls : w * t.channels.toNat * (t.bpc.toNat / 8) ≤
      t.width * t.channels.toNat * (t.bpc.toNat / 8) :=
    Nat.mul_le_mul (Nat.mul_le_mul hw le_rfl) le_rfl
  have hb : ∀ j, j < h →
      j * (t.width * t.channels.toNat * (t.bpc.toNat / 8)) +
        w * t.channels.toNat * (t.bpc.toNat / 8) ≤ bs.length := by
    intro j hj
    rw [hbs]
    have hj1 : j + 1 ≤ t.height := le_trans hj hh
    have h2 : (j + 1) * (t.width * t.channels.toNat * (t.bpc.toNat / 8)) ≤
        t.height * (t.width * t.channels.toNat * (t.bpc.toNat / 8)) :=
      Nat.mul_le_mul hj1 le_rfl
    rw [Nat.succ_mul] at h2
    omega
  have hLd : w * h * t.channels.toNat * (t.bpc.toNat / 8) =
      h * (w * t.channels.toNat * (t.bpc.toNat / 8)) := by ring
  have hkey := copyScanlines_spec m.next p (Ne.symm hpn) bs
    (w * t.channels.toNat * (t.bpc.toNat / 8))
    (t.width * t.channels.toNat * (t.bpc.toNat / 8))
    (w * h * t.channels.toNat * (t.bpc.toNat / 8)) h
    (m.alloc (w * h * t.channels.toNat * (t.bpc.toNat / 8))).1
    (Mem.get_alloc_self m _)
    (by rw [Mem.get_alloc_other m _ p hpn]; exact hm)
    hb (le_of_eq hLd.symm)
  obtain ⟨hdstC, hframeC⟩ := hkey
  have hdstF :
      (copyScanlines (m.alloc (w * h * t.channels.toNat * (t.bpc.toNat / 8))).1
          m.next p (w * t.channels.toNat * (t.bpc.toNat / 8))
          (t.width * t.channels.toNat * (t.bpc.toNat / 8)) h).get? m.next =
        some (scanJoin bs (w * t.channels.toNat * (t.bpc.toNat / 8))
          (t.width * t.channels.toNat * (t.bpc.toNat / 8)) h) := by
    rw [hdstC]
    have hz : w * h * t.channels.toNat * (t.bpc.toNat / 8) -
        h * (w * t.channels.toNat * (t.bpc.toNat / 8)) = 0 := by omega
    rw [hz]
    simp
  have hcrop : t.crop m w h =
      ({ t with
          data := some m.next
          memoryManaged := 1
          capacity := w * h * t.channels.toNat * (t.bpc.toNat / 8)
          dataLength := w * h * t.channels.toNat * (t.bpc.toNat / 8)
          width := w
          height := h },
        if t.memoryManaged ≠ 0 then
          (copyScanlines (m.alloc (w * h * t.channels.toNat * (t.bpc.toNat / 8))).1
            m.next p (w * t.channels.toNat * (t.bpc.toNat / 8))
            (t.width * t.channels.toNat * (t.bpc.toNat / 8)) h).free p
        else
          copyScanlines (m.alloc (w * h * t.channels.toNat * (t.bpc.toNat / 8))).1
            m.next p (w * t.channels.toNat * (t.bpc.toNat / 8))
            (t.width * t.channels.toNat * (t.bpc.toNat / 8)) h) := by
    by_cases hmm : t.memoryManaged = 0 <;>
      simp only [RawTile.crop, RawTile.allocate, RawTile.deallocate, hdata,
        hlen_eq, hdlen_eq, hslen_eq, hlen_ne, if_false, hnb, hmm, Mem.alloc,
        ite_not, ne_eq, not_true_eq_false, not_false_eq_true,
        ite_true, ite_false, if_neg]
  rw [hcrop]
  by_cases hmm : t.memoryManaged = 0
  · refine ⟨rfl, rfl, rfl, rfl, rfl, ?_⟩
    simp only [hmm, ne_eq, not_true_eq_false, ite_false]
    exact hdstF
  · refine ⟨rfl, rfl, rfl, rfl, rfl, ?_⟩
    simp only [hmm, ne_eq, not_false_eq_true, ite_true]
    rw [Mem.get_free]
    rw [if_neg (Ne.symm hpn)]
    exact hdstF

/-! ### The triplicate pixel copy -/

/-- A single `memcpy` of `n` bytes whose destination offset sits exactly at
the end of an already-written prefix `pre`, with `pad` the untouched rest
of the destination block. -/
theorem copy_chunk (m : Mem) (dst src : Ptr) (pre pad bs : List Nat)
    (off sOff n : Nat)
    (hoff : off = pre.length)
    (hdst : m.get? dst = some (pre ++ pad))
    (hsrc : m.get? src = some bs)
    (hn : sOff + n ≤ bs.length)
    (hpad : n ≤ pad.length) :
    (m.copyBytes dst off src sOff n).get? dst =
        some ((pre ++ (bs.drop sOff).take n) ++ pad.drop n) ∧
      ∀ r, r ≠ dst → (m.copyBytes dst off src sOff n).get? r = m.get? r := by
  have hchunk : ((bs.drop sOff).take n).length = n := by
    simp only [List.length_take, List.length_drop]
    omega
  constructor
  · rw [Mem.copyBytes, Mem.get_write, if_pos rfl,
      Mem.readBytes_eq m src bs sOff n hsrc, hdst, Option.map_some', hoff]
    have h := overwriteAt_append pre pad ((bs.drop sOff).take n)
      (by rw [hchunk]; exact hpad)
    rw [h, hchunk]
  · intro r hr
    rw [Mem.copyBytes, Mem.get_write, if_neg hr]

theorem tripJoin_succ (bs : List Nat) (e i : Nat) :
    tripJoin bs e (i + 1) =
      tripJoin bs e i ++ ((bs.drop (i * e)).take e ++ (bs.drop (i * e)).take e ++
        (bs.drop (i * e)).take e) := by
  simp [tripJoin, List.range_succ]

theorem tripJoin_length (bs : List Nat) (e i : Nat)
    (hb : ∀ j, j < i → j * e + e ≤ bs.length) :
    (tripJoin bs e i).length = 3 * i * e := by
  induction i with
  | zero => simp [tripJoin]
  | succ i ih =>
    rw [tripJoin_succ, List.length_append,
      ih (fun j hj => hb j (Nat.lt_succ_of_lt hj))]
    have h1 : i * e + e ≤ bs.length := hb i (Nat.lt_succ_self i)
    have h2 : ((bs.drop (i * e)).take e).length = e := by
      simp only [List.length_take, List.length_drop]
      omega
    simp only [List.length_append, h2]
    ring

theorem tripLoop_spec (dst src : Ptr) (hds : dst ≠ src)
    (bs : List Nat) (e L N : Nat) (hN : 3 * N < U32) :
    ∀ (i : Nat) (m : Mem), i ≤ N →
      m.get? dst = some (List.replicate L 0) →
      m.get? src = some bs →
      (∀ j, j < i → j * e + e ≤ bs.length) →
      3 * i * e ≤ L →
      (tripLoop m dst src e i).get? dst =
          some (tripJoin bs e i ++ List.replicate (L - 3 * i * e) 0) ∧
        ∀ r, r ≠ dst → (tripLoop m dst src e i).get? r = m.get? r := by
  intro i
  induction i with
  | zero =>
    intro m _ hdst hsrc _ _
    exact ⟨by simpa [tripLoop, tripJoin] using hdst, fun r _ => rfl⟩
  | succ i ih =>
    intro m hiN hdst hsrc hb hL
    have hi3 : 3 * i + 2 < U32 := by omega
    have hbi : ∀ j, j < i → j * e + e ≤ bs.length :=
      fun j hj => hb j (Nat.lt_succ_of_lt hj)
    have hLe : 3 * (i + 1) * e = 3 * i * e + e + e + e := by ring
    rw [hLe] at hL
    have hLi : 3 * i * e ≤ L := by omega
    obtain ⟨ihdst, ihframe⟩ := ih m (Nat.le_of_succ_le hiN) hdst hsrc hbi hLi
    have ihsrc : (tripLoop m dst src e i).get? src = some bs := by
      rw [ihframe src (Ne.symm hds)]; exact hsrc
    set mi := tripLoop m dst src e i with hmi
    have hread : i * e + e ≤ bs.length := hb i (Nat.lt_succ_self i)
    have hpre : (tripJoin bs e i).length = 3 * i * e :=
      tripJoin_length bs e i hbi
    -- the uint32 accumulator n = 3*i (+1, +2) does not wrap
    have hn0 : (3 * i) % U32 = 3 * i := Nat.mod_eq_of_lt (by omega)
    have hn1 : (3 * i + 1) % U32 = 3 * i + 1 := Nat.mod_eq_of_lt (by omega)
    have hn2 : (3 * i + 2) % U32 = 3 * i + 2 := Nat.mod_eq_of_lt (by omega)
    -- first write
    obtain ⟨h1dst, h1frame⟩ := copy_chunk mi dst src (tripJoin bs e i)
      (List.replicate (L - 3 * i * e) 0) bs (3 * i * e) (i * e) e
      hpre.symm ihdst ihsrc hread (by simp; omega)
    rw [List.drop_replicate] at h1dst
    have h1src : (mi.copyBytes dst (3 * i * e) src (i * e) e).get? src = some bs := by
      rw [h1frame src (Ne.symm hds)]; exact ihsrc
    set m1 := mi.copyBytes dst (3 * i * e) src (i * e) e with hm1
    -- second write
    have hpre1 : (tripJoin bs e i ++ (bs.drop (i * e)).take e).length =
        (3 * i + 1) * e := by
      simp only [List.length_append, hpre, List.length_take, List.length_drop]
      have : min e (bs.length - i * e) = e := by omega
      rw [this]
      ring
    obtain ⟨h2dst, h2frame⟩ := copy_chunk m1 dst src
      (tripJoin bs e i ++ (bs.drop (i * e)).take e)
      (List.replicate (L - 3 * i * e - e) 0) bs ((3 * i + 1) * e) (i * e) e
      hpre1.symm h1dst h1src hread (by simp; omega)
    rw [List.drop_replicate] at h2dst
    have h2src : (m1.copyBytes dst ((3 * i + 1) * e) src (i * e) e).get? src =
        some bs := by
      rw [h2frame src (Ne.symm hds)]; exact h1src
    set m2 := m1.copyBytes dst ((3 * i + 1) * e) src (i * e) e with hm2
    -- third write
    have hpre2 : ((tripJoin bs e i ++ (bs.drop (i * e)).take e) ++
        (bs.drop (i * e)).take e).length = (3 * i + 2) * e := by
      simp only [List.length_append, hpre, List.length_take, List.length_drop]
      have : min e (bs.length - i * e) = e := by omega
      rw [this]
      ring
    obtain ⟨h3dst, h3frame⟩ := copy_chunk m2 dst src
      ((tripJoin bs e i ++ (bs.drop (i * e)).take e) ++ (bs.drop (i * e)).take e)
      (List.replicate (L - 3 * i * e - e - e) 0) bs ((3 * i + 2) * e) (i * e) e
      hpre2.symm h2dst h2src hread (by simp; omega)
    rw [List.drop_replicate] at h3dst
    have hstep : tripLoop m dst src e (i + 1) =
        m2.copyBytes dst ((3 * i + 2) * e) src (i * e) e := by
      simp only [tripLoop]
      rw [hn0, hn1, hn2, ← hmi, ← hm1, ← hm2]
    constructor
    · rw [hstep, h3dst, tripJoin_succ]
      have hz : L - 3 * i * e - e - e - e = L - 3 * (i + 1) * e := by
        rw [hLe]
        omega
      rw [hz]
      simp [List.append_assoc]
    · intro r hr
      rw [hstep, Mem.copyBytes, Mem.get_write, if_neg hr,
        h2frame r hr, h1frame r hr, ihframe r hr]

/-- C3: `triplicate()` on a 1-channel buffer yields a 3-channel buffer in
which every source element (of the byte width selected by
`(bpc, sampleType)`) appears in all three channel slots of its pixel, in
pixel order; on `channels ≠ 1` it is a no-op. -/
theorem triplicate_spec (t : RawTile) (m : Mem) (p : Ptr) (bs : List Nat)
    (hch : t.channels = 1)
    (hdata : t.data = some p)
    (hm : m.get? p = some bs)
    (hwf : m.WF)
    (hbpc : t.bpc = 8 ∨ t.bpc = 16 ∨ t.bpc = 32)
    (hbig : t.width * t.height * 3 * elemBytes t.bpc t.sampleType < 4294967296)
    (hbs : bs.length = t.width * t.height * elemBytes t.bpc t.sampleType) :
    ((t.triplicate m).1.channels = 3 ∧
      (t.triplicate m).1.data = some m.next ∧
      (t.triplicate m).2.get? m.next =
        some (tripJoin bs (elemBytes t.bpc t.sampleType) (t.width * t.height))) ∧
    ∀ (u : RawTile) (mu : Mem), u.channels ≠ 1 → u.triplicate mu = (u, mu) := by
  have hp_lt : p < m.next := Mem.lt_next_of_get m hwf p bs hm
  have hpn : p ≠ m.next := Nat.ne_of_lt hp_lt
  have heB1 : 1 ≤ elemBytes t.bpc t.sampleType := by
    rcases hbpc with hb | hb | hb <;> rw [hb] <;> unfold elemBytes <;>
      norm_num [ite_self]
  have htod : toU32 (Int.tdiv t.bpc 8) = elemBytes t.bpc t.sampleType := by
    rcases hbpc with hb | hb | hb <;> rw [hb] <;> unfold elemBytes <;>
      norm_num [ite_self] <;> rfl
  have hwh_le : t.width * t.height ≤
      t.width * t.height * 3 * elemBytes t.bpc t.sampleType := by
    calc t.width * t.height = t.width * t.height * 1 * 1 := by ring
    _ ≤ t.width * t.height * 3 * elemBytes t.bpc t.sampleType :=
      Nat.mul_le_mul (Nat.mul_le_mul le_rfl (by norm_num)) heB1
  have hsize_eq : (t.width * t.height * 3 * elemBytes t.bpc t.sampleType) % U32 =
      t.width * t.height * 3 * elemBytes t.bpc t.sampleType :=
    Nat.mod_eq_of_lt hbig
  have hwh_eq : (t.width * t.height) % U32 = t.width * t.height :=
    Nat.mod_eq_of_lt (lt_of_le_of_lt hwh_le hbig)
  have hnb : (if t.bpc = 32 then
        (if t.sampleType = SampleType.FLOATINGPOINT then
          ((t.width * t.height * 3 * elemBytes t.bpc t.sampleType) / 4) * 4
        else ((t.width * t.height * 3 * elemBytes t.bpc t.sampleType) / 4) * 4)
      else if t.bpc = 16 then
        ((t.width * t.height * 3 * elemBytes t.bpc t.sampleType) / 2) * 2
      else t.width * t.height * 3 * elemBytes t.bpc t.sampleType) =
      t.width * t.height * 3 * elemBytes t.bpc t.sampleType := by
    rcases hbpc with hb | hb | hb
    · rw [hb]
      norm_num
    · rw [hb]
      unfold elemBytes
      norm_num
    · rw [hb]
      unfold elemBytes
      norm_num [ite_self]
  have h3N : 3 * (t.width * t.height) < U32 := by
    calc 3 * (t.width * t.height) = t.width * t.height * 3 * 1 := by ring
    _ ≤ t.width * t.height * 3 * elemBytes t.bpc t.sampleType :=
      Nat.mul_le_mul le_rfl heB1
    _ < U32 := hbig
  have hb : ∀ j, j < t.width * t.height →
      j * elemBytes t.bpc t.sampleType + elemBytes t.bpc t.sampleType ≤
        bs.length := by
    intro j hj
    rw [hbs]
    have h2 : (j + 1) * elemBytes t.bpc t.sampleType ≤
        (t.width * t.height) * elemBytes t.bpc t.sampleType :=
      Nat.mul_le_mul hj le_rfl
    rw [Nat.succ_mul] at h2
    calc j * elemBytes t.bpc t.sampleType + elemBytes t.bpc t.sampleType ≤
        (t.width * t.height) * elemBytes t.bpc t.sampleType := h2
    _ ≤ t.width * t.height * elemBytes t.bpc t.sampleType := le_rfl
  have hLd : 3 * (t.width * t.height) * elemBytes t.bpc t.sampleType =
      t.width * t.height * 3 * elemBytes t.bpc t.sampleType := by ring
  have hkey := tripLoop_spec m.next p (Ne.symm hpn) bs
    (elemBytes t.bpc t.sampleType)
    (t.width * t.height * 3 * elemBytes t.bpc t.sampleType)
    (t.width * t.height) h3N (t.width * t.height)
    (m.alloc (t.width * t.height * 3 * elemBytes t.bpc t.sampleType)).1
    le_rfl (Mem.get_alloc_self m _)
    (by rw [Mem.get_alloc_other m _ p hpn]; exact hm)
    hb (le_of_eq hLd)
  obtain ⟨hdstC, hframeC⟩ := hkey
  have hdstF :
      (tripLoop (m.alloc (t.width * t.height * 3 *
            elemBytes t.bpc t.sampleType)).1 m.next p
          (elemBytes t.bpc t.sampleType) (t.width * t.height)).get? m.next =
        some (tripJoin bs (elemBytes t.bpc t.sampleType)
          (t.width * t.height)) := by
    rw [hdstC]
    have hz : t.width * t.height * 3 * elemBytes t.bpc t.sampleType -
        3 * (t.width * t.height) * elemBytes t.bpc t.sampleType = 0 := by
      omega
    rw [hz]
    simp
  have htrip : t.triplicate m =
      ({ t with
          channels := 3
          data := some m.next
          memoryManaged := 1
          capacity := t.width * t.height
          dataLength := t.width * t.height },
        if t.memoryManaged ≠ 0 then
          (tripLoop (m.alloc (t.width * t.height * 3 *
              elemBytes t.bpc t.sampleType)).1 m.next p
            (elemBytes t.bpc t.sampleType) (t.width * t.height)).free p
        else
          tripLoop (m.alloc (t.width * t.height * 3 *
              elemBytes t.bpc t.sampleType)).1 m.next p
            (elemBytes t.bpc t.sampleType) (t.width * t.height)) := by
    by_cases hmm : t.memoryManaged = 0 <;>
      simp only [RawTile.triplicate, RawTile.allocate, RawTile.defaultSize,
        RawTile.deallocate, hch, hdata, hmm, Mem.alloc,
        show toU32 3 = 3 from rfl, htod, hsize_eq, hwh_eq, hnb,
        ne_eq, not_true_eq_false, not_false_eq_true, ite_true, ite_false,
        if_neg, if_pos]
  refine ⟨?_, ?_⟩
  · rw [htrip]
    by_cases hmm : t.memoryManaged = 0
    · refine ⟨rfl, rfl, ?_⟩
      simp only [hmm, ne_eq, not_true_eq_false, ite_false]
      exact hdstF
    · refine ⟨rfl, rfl, ?_⟩
      simp only [hmm, ne_eq, not_false_eq_true, ite_true]
      rw [Mem.get_free]
      rw [if_neg (Ne.symm hpn)]
      exact hdstF
  · intro u mu huch
    simp [RawTile.triplicate, huch]

/-! ### Allocation, deallocation, equality -/

/-- C7: `allocate(size)` computes the default size
`width * height * channels * (bpc/8)` when `size` is zero (or omitted),
and afterwards `capacity == size`, the tile owns its buffer, and the
buffer reference is non-empty. -/
theorem allocate_spec (t : RawTile) (m : Mem) (size : Nat)
    (hc : 0 ≤ t.channels) (hcU : t.channels < (4294967296 : Int))
    (hb : 0 ≤ t.bpc) (hbU : t.bpc < (4294967296 : Int))
    (hfit : t.width * t.height * t.channels.toNat * (t.bpc.toNat / 8) < 4294967296)
    (hszU : size < 4294967296) :
    (t.allocate m size).1.capacity =
        (if size = 0 then
          t.width * t.height * t.channels.toNat * (t.bpc.toNat / 8)
        else size) ∧
      (t.allocate m size).1.memoryManaged = 1 ∧
      (t.allocate m size).1.data = some m.next := by
  have htoc : toU32 t.channels = t.channels.toNat := by
    unfold toU32
    rw [Int.emod_eq_of_lt hc hcU]
  have htod : toU32 (Int.tdiv t.bpc 8) = t.bpc.toNat / 8 := by
    obtain ⟨n, hn⟩ : ∃ n : Nat, t.bpc = (n : Int) :=
      ⟨t.bpc.toNat, (Int.toNat_of_nonneg hb).symm⟩
    rw [hn] at hbU ⊢
    rw [show Int.tdiv (n : Int) 8 = ((n / 8 : Nat) : Int) from rfl]
    unfold toU32
    rw [Int.emod_eq_of_lt (by positivity) (by omega)]
    omega
  refine ⟨?_, rfl, rfl⟩
  by_cases hsz : size = 0
  · subst hsz
    simp only [RawTile.allocate, RawTile.defaultSize, if_pos, ite_true, htoc, htod]
    exact Nat.mod_eq_of_lt hfit
  · simp only [RawTile.allocate, hsz, ite_false]

/-- C10: `deallocate` called with a null buffer reference is a complete
no-op — in particular `capacity` and `dataLength` are left unchanged. -/
theorem deallocate_null_noop (t : RawTile) (m : Mem) :
    t.deallocate m none = (t, m) := rfl

/-- C5: `operator==` returns 1 exactly when tile number, resolution,
horizontal sequence, vertical sequence, compression type, quality and
filename all agree, and 0 exactly otherwise; no other field (pixel data,
geometry, …) takes part. -/
theorem eq_iff_seven_fields (A B : RawTile) :
    (rawTileEq A B = 1 ↔
      (A.tileNum = B.tileNum ∧ A.resolution = B.resolution ∧
       A.hSequence = B.hSequence ∧ A.vSequence = B.vSequence ∧
       A.compressionType = B.compressionType ∧ A.quality = B.quality ∧
       A.filename = B.filename)) ∧
    (rawTileEq A B = 0 ↔
      ¬(A.tileNum = B.tileNum ∧ A.resolution = B.resolution ∧
        A.hSequence = B.hSequence ∧ A.vSequence = B.vSequence ∧
        A.compressionType = B.compressionType ∧ A.quality = B.quality ∧
        A.filename = B.filename)) := by
  unfold rawTileEq
  split_ifs with h <;> simp [h]

/-- C9: `operator!=` is the exact negation of `operator==`: it returns 0
exactly when `==` returns 1, and 1 exactly when `==` returns 0. -/
theorem ne_exact_negation (A B : RawTile) :
    (rawTileNe A B = 0 ↔ rawTileEq A B = 1) ∧
    (rawTileNe A B = 1 ↔ rawTileEq A B = 0) := by
  unfold rawTileEq rawTileNe
  split_ifs <;> simp

/-- `allocate( L )` (for `L > 0` a multiple of the element width) followed
by `memcpy( data, src, L )` — the common tail of the copy constructor,
copy assignment and the non-owning branch of the move operations. -/
theorem allocCopy_spec (c : RawTile) (m : Mem) (p : Ptr) (bs : List Nat) (L : Nat)
    (hm : m.get? p = some bs) (hwf : m.WF) (hL0 : 0 < L) (hLb : L ≤ bs.length)
    (hdiv : elemBytes c.bpc c.sampleType ∣ L) :
    (c.allocate m L).1.data = some m.next ∧
    (c.allocate m L).1.capacity = L ∧
    (c.allocate m L).1.memoryManaged = 1 ∧
    ((c.allocate m L).2.copyBytes m.next 0 p 0 L).get? m.next =
      some (bs.take L) ∧
    ((c.allocate m L).2.copyBytes m.next 0 p 0 L).get? p = some bs ∧
    p ≠ m.next := by
  have hpn : p ≠ m.next := Nat.ne_of_lt (Mem.lt_next_of_get m hwf p bs hm)
  have hnb : (if c.bpc = 32 then
        (if c.sampleType = SampleType.FLOATINGPOINT then (L / 4) * 4
         else (L / 4) * 4)
      else if c.bpc = 16 then (L / 2) * 2 else L) = L := by
    by_cases h32 : c.bpc = 32
    · have h4 : (4 : Nat) ∣ L := by
        simpa [elemBytes, h32, ite_self] using hdiv
      simp [h32, ite_self, Nat.div_mul_cancel h4]
    · by_cases h16 : c.bpc = 16
      · have h2 : (2 : Nat) ∣ L := by
          simpa [elemBytes, h32, h16] using hdiv
        simp [h32, h16, Nat.div_mul_cancel h2]
      · simp [h32, h16]
  have halloc : c.allocate m L =
      ({ c with data := some m.next, memoryManaged := 1, capacity := L },
        (m.alloc L).1) := by
    simp only [RawTile.allocate, Nat.pos_iff_ne_zero.mp hL0, ite_false, hnb,
      Mem.alloc]
  have hdst0 : (m.alloc L).1.get? m.next = some (List.replicate L 0) :=
    Mem.get_alloc_self m L
  have hsrc0 : (m.alloc L).1.get? p = some bs := by
    rw [Mem.get_alloc_other m L p hpn]; exact hm
  obtain ⟨hcontent, hframe⟩ := copy_chunk (m.alloc L).1 m.next p []
    (List.replicate L 0) bs 0 0 L rfl (by simpa using hdst0) hsrc0
    (by omega) (by simp)
  have hcontent' : ((m.alloc L).1.copyBytes m.next 0 p 0 L).get? m.next =
      some (bs.take L) := by
    rw [hcontent]
    simp
  have hsrc1 : ((m.alloc L).1.copyBytes m.next 0 p 0 L).get? p = some bs := by
    rw [hframe p hpn]; exact hsrc0
  rw [halloc]
  exact ⟨rfl, rfl, rfl, hcontent', hsrc1, hpn⟩

/-- C8: copying (copy constructor, and copy assignment for any prior
destination state) gives the destination a full copy of the source's
`dataLength` bytes in a fresh, distinct allocation, marks the destination
as owning, copies every metadata field, and leaves the source tile value
and the source's block untouched; further writes through the copy's
block do not alter the source's block. -/
theorem copy_spec (t : RawTile) (m : Mem) (p : Ptr) (bs : List Nat)
    (hdata : t.data = some p)
    (hm : m.get? p = some bs)
    (hwf : m.WF)
    (hdl : 0 < t.dataLength)
    (hlb : t.dataLength ≤ bs.length)
    (hdiv : elemBytes t.bpc t.sampleType ∣ t.dataLength) :
    ((t.copyCtor m).1.data = some m.next ∧
      m.next ≠ p ∧
      (t.copyCtor m).2.get? m.next = some (bs.take t.dataLength) ∧
      (t.copyCtor m).1.memoryManaged = 1 ∧
      (t.copyCtor m).2.get? p = some bs ∧
      (∀ (off : Nat) (v : List Nat),
        ((t.copyCtor m).2.write m.next off v).get? p = some bs) ∧
      (t.copyCtor m).1.filename = t.filename ∧
      (t.copyCtor m).1.width = t.width ∧
      (t.copyCtor m).1.height = t.height ∧
      (t.copyCtor m).1.channels = t.channels ∧
      (t.copyCtor m).1.bpc = t.bpc ∧
      (t.copyCtor m).1.sampleType = t.sampleType ∧
      (t.copyCtor m).1.compressionType = t.compressionType ∧
      (t.copyCtor m).1.quality = t.quality ∧
      (t.copyCtor m).1.timestamp = t.timestamp ∧
      (t.copyCtor m).1.tileNum = t.tileNum ∧
      (t.copyCtor m).1.resolution = t.resolution ∧
      (t.copyCtor m).1.hSequence = t.hSequence ∧
      (t.copyCtor m).1.vSequence = t.vSequence ∧
      (t.copyCtor m).1.dataLength = t.dataLength) ∧
    ∀ d : RawTile,
      (d.copyAssign t m).1.data = some m.next ∧
      (d.copyAssign t m).2.get? m.next = some (bs.take t.dataLength) ∧
      (d.copyAssign t m).1.memoryManaged = 1 ∧
      (d.copyAssign t m).2.get? p = some bs := by
  obtain ⟨ha1, ha2, ha3, ha4, ha5, ha6⟩ :=
    allocCopy_spec { t with data := none } m p bs t.dataLength hm hwf hdl hlb
      (by simpa using hdiv)
  have hctor : t.copyCtor m =
      ({ (({ t with data := none } : RawTile).allocate m t.dataLength).1 with
          memoryManaged := 1 },
        (({ t with data := none } : RawTile).allocate m t.dataLength).2.copyBytes
          m.next 0 p 0 t.dataLength) := by
    simp only [RawTile.copyCtor, hdata, hdl, if_pos, ha1]
  constructor
  · rw [hctor]
    refine ⟨?_, Ne.symm ha6, ha4, rfl, ha5, ?_,
      rfl, rfl, rfl, rfl, rfl, rfl, rfl, rfl, rfl, rfl, rfl, rfl, rfl, rfl⟩
    · show ({ (({ t with data := none } : RawTile).allocate m t.dataLength).1 with
          memoryManaged := 1 } : RawTile).data = some m.next
      rw [show ({ (({ t with data := none } : RawTile).allocate m
          t.dataLength).1 with memoryManaged := 1 } : RawTile).data =
        (({ t with data := none } : RawTile).allocate m t.dataLength).1.data
        from rfl, ha1]
    · intro off v
      rw [Mem.get_write, if_neg ha6]
      exact ha5
  · intro d
    obtain ⟨hb1, hb2, hb3, hb4, hb5, hb6⟩ :=
      allocCopy_spec
        { d with
            tileNum := t.tileNum, resolution := t.resolution,
            hSequence := t.hSequence, vSequence := t.vSequence,
            compressionType := t.compressionType, quality := t.quality,
            filename := t.filename, timestamp := t.timestamp,
            memoryManaged := t.memoryManaged, dataLength := t.dataLength,
            width := t.width, height := t.height, channels := t.channels,
            bpc := t.bpc, sampleType := t.sampleType, capacity := t.capacity }
        m p bs t.dataLength hm hwf hdl hlb (by simpa using hdiv)
    have hassign : d.copyAssign t m =
        ({ (({ d with
              tileNum := t.tileNum, resolution := t.resolution,
              hSequence := t.hSequence, vSequence := t.vSequence,
              compressionType := t.compressionType, quality := t.quality,
              filename := t.filename, timestamp := t.timestamp,
              memoryManaged := t.memoryManaged, dataLength := t.dataLength,
              width := t.width, height := t.height, channels := t.channels,
              bpc := t.bpc, sampleType := t.sampleType,
              capacity := t.capacity } : RawTile).allocate m t.dataLength).1 with
            memoryManaged := 1 },
          (({ d with
              tileNum := t.tileNum, resolution := t.resolution,
              hSequence := t.hSequence, vSequence := t.vSequence,
              compressionType := t.compressionType, quality := t.quality,
              filename := t.filename, timestamp := t.timestamp,
              memoryManaged := t.memoryManaged, dataLength := t.dataLength,
              width := t.width, height := t.height, channels := t.channels,
              bpc := t.bpc, sampleType := t.sampleType,
              capacity := t.capacity } : RawTile).allocate m
            t.dataLength).2.copyBytes m.next 0 p 0 t.dataLength) := by
      simp only [RawTile.copyAssign, hdata, hdl, if_pos, hb1]
    rw [hassign]
    exact ⟨hb1, hb2 ▸ hb4, rfl, hb5⟩

/-- C4: the move constructor transfers ownership: if the source owns its
buffer the destination adopts the pointer with no copy (heap unchanged)
and the source is left with a cleared reference, zero `dataLength` and
`capacity`, and a cleared ownership flag; if the source does not own its
(non-empty) buffer, the destination gets a fresh full copy of the bytes
and is marked as owning, and the source is returned unchanged. -/
theorem move_spec (t : RawTile) (m : Mem) :
    (t.memoryManaged = 1 →
      (t.moveCtor m).2 = m ∧
      (t.moveCtor m).1.1.data = t.data ∧
      (t.moveCtor m).1.2.data = none ∧
      (t.moveCtor m).1.2.dataLength = 0 ∧
      (t.moveCtor m).1.2.capacity = 0 ∧
      (t.moveCtor m).1.2.memoryManaged = 0) ∧
    (∀ (p : Ptr) (bs : List Nat),
      t.memoryManaged ≠ 1 → t.data = some p → 0 < t.dataLength →
      m.get? p = some bs → m.WF → t.dataLength ≤ bs.length →
      elemBytes t.bpc t.sampleType ∣ t.dataLength →
      (t.moveCtor m).1.1.data = some m.next ∧
      (t.moveCtor m).1.1.memoryManaged = 1 ∧
      (t.moveCtor m).2.get? m.next = some (bs.take t.dataLength) ∧
      (t.moveCtor m).1.2 = t ∧
      (t.moveCtor m).2.get? p = some bs) := by
  constructor
  · intro h1
    simp [RawTile.moveCtor, h1]
  · intro p bs hmm1 hdata hdl hm hwf hlb hdiv
    obtain ⟨ha1, ha2, ha3, ha4, ha5, ha6⟩ :=
      allocCopy_spec { t with data := none } m p bs t.dataLength hm hwf hdl hlb
        (by simpa using hdiv)
    have hmove : t.moveCtor m =
        (({ (({ t with data := none } : RawTile).allocate m t.dataLength).1 with
            memoryManaged := 1 }, t),
          (({ t with data := none } : RawTile).allocate m
            t.dataLength).2.copyBytes m.next 0 p 0 t.dataLength) := by
      simp only [RawTile.moveCtor, hmm1, hdata, hdl, if_pos, if_neg, ite_false,
        ha1]
    rw [hmove]
    exact ⟨ha1, rfl, ha4, rfl, ha5⟩

/-! ### The two places the code deviates from the stated invariants -/

/-- C1: after `triplicate()` on a populated 2x2, 1-channel, 8-bit tile the
stored `dataLength` is the pixel count 4, while the byte size implied by
the post-operation `width * height * channels * (bpc/8)` is 12: the size
invariant claimed for reshape operations fails after `triplicate`
(`crop` and fresh allocation are handled in their own theorems). -/
theorem triplicate_dataLength_is_pixel_count :
    (tileC1.triplicate memC1).1.dataLength = 4 ∧
    (tileC1.triplicate memC1).1.capacity = 4 ∧
    (tileC1.triplicate memC1).1.width * (tileC1.triplicate memC1).1.height *
        (tileC1.triplicate memC1).1.channels.toNat *
        ((tileC1.triplicate memC1).1.bpc.toNat / 8) = 12 ∧
    (4 : Nat) ≠ 12 := by decide

/-- C6: `allocate()` followed by `deallocate( data )` on a fresh 2x2,
1-channel, 8-bit tile zeroes `capacity` and `dataLength` and frees the
block, but the member `data` still holds the old — now dangling — pointer:
the buffer reference is not left empty (the source's `buffer = NULL`
assigns only the by-value parameter). -/
theorem deallocate_leaves_dangling_data :
    deallocC6.1.capacity = 0 ∧ deallocC6.1.dataLength = 0 ∧
    deallocC6.1.data = some 0 ∧ ¬ deallocC6.1.data = none ∧
    deallocC6.2.get? 0 = none := by decide

/-! ### Witnesses instantiating the general theorems -/

theorem crop_spec_witness :
    (tileC2.crop memC2 2 2).1.width = 2 ∧
    (tileC2.crop memC2 2 2).1.height = 2 ∧
    (tileC2.crop memC2 2 2).1.capacity = 4 ∧
    (tileC2.crop memC2 2 2).1.dataLength = 4 ∧
    (tileC2.crop memC2 2 2).1.data = some 1 ∧
    (tileC2.crop memC2 2 2).2.get? 1 = some [0, 1, 4, 5] :=
  crop_spec tileC2 memC2 0
    [0, 1, 2, 3, 4, 5, 6, 7, 8, 9, 10, 11, 12, 13, 14, 15] 2 2
    rfl rfl (by decide) (by decide) (by decide) (by decide) (by decide)
    (Or.inl rfl) (by decide) (by decide) (by decide)

theorem triplicate_spec_witness :
    (tileC3.triplicate memC3).1.channels = 3 ∧
    (tileC3.triplicate memC3).1.data = some 1 ∧
    (tileC3.triplicate memC3).2.get? 1 = some [7, 7, 7, 9, 9, 9] :=
  (triplicate_spec tileC3 memC3 0 [7, 9]
    rfl rfl rfl (by decide) (Or.inl rfl) (by decide) (by decide)).1

theorem allocate_spec_witness :
    (tileC7.allocate memC7 0).1.capacity = 36 ∧
    (tileC7.allocate memC7 0).1.memoryManaged = 1 ∧
    (tileC7.allocate memC7 0).1.data = some 0 :=
  allocate_spec tileC7 memC7 0 (by decide) (by decide) (by decide) (by decide)
    (by decide) (by decide)

theorem copy_spec_witness :
    (tileC8.copyCtor memC8).1.data = some 1 ∧
    (1 : Ptr) ≠ 0 ∧
    (tileC8.copyCtor memC8).2.get? 1 = some [3, 4] ∧
    (tileC8.copyCtor memC8).1.memoryManaged = 1 ∧
    (tileC8.copyCtor memC8).2.get? 0 = some [3, 4] ∧
    ((tileC8.copyCtor memC8).2.write 1 0 [99, 98]).get? 0 = some [3, 4] :=
  have h := copy_spec tileC8 memC8 0 [3, 4] rfl rfl (by decide) (by decide)
    (by decide) (by decide)
  ⟨h.1.1, h.1.2.1, h.1.2.2.1, h.1.2.2.2.1, h.1.2.2.2.2.1,
    h.1.2.2.2.2.2.1 0 [99, 98]⟩

theorem move_spec_witness :
    ((tileC4.moveCtor memC4).2 = memC4 ∧
      (tileC4.moveCtor memC4).1.1.data = some 0 ∧
      (tileC4.moveCtor memC4).1.2.data = none ∧
      (tileC4.moveCtor memC4).1.2.dataLength = 0 ∧
      (tileC4.moveCtor memC4).1.2.capacity = 0 ∧
      (tileC4.moveCtor memC4).1.2.memoryManaged = 0) ∧
    ((tileC8.moveCtor memC8).1.1.data = some 1 ∧
      (tileC8.moveCtor memC8).1.1.memoryManaged = 1 ∧
      (tileC8.moveCtor memC8).2.get? 1 = some [3, 4] ∧
      (tileC8.moveCtor memC8).1.2 = tileC8 ∧
      (tileC8.moveCtor memC8).2.get? 0 = some [3, 4]) :=
  ⟨(move_spec tileC4 memC4).1 rfl,
    (move_spec tileC8 memC8).2 0 [3, 4] (by decide) rfl (by decide) rfl
      (by decide) (by decide) (by decide)⟩
